import Mathlib

/-
Shallow embedding of the member-record reconciliation pipeline of
`streamlit_app.py` (build_members_df, load_children, signed_url) together
with the small python/pandas primitives it relies on.  DataFrame rows are
modelled as structures with Option-valued fields (none = missing field /
NaN); column presence, which pandas tracks per DataFrame, is modelled by
explicit flags derived from the row data.  Timestamps are integers
(seconds since epoch, UTC).
-/

namespace Chops

/-- Python str.startswith, modelled on the character list of the string. -/
def pyStartsWith (s pre : String) : Bool :=
  pre.data.isPrefixOf s.data

def isSpaceChar (c : Char) : Bool :=
  c == ' ' || c == '\t' || c == '\n' || c == '\r'

/-- Python str.strip(): drop whitespace from both ends. -/
def pyStrip (s : String) : String :=
  String.mk (((s.data.dropWhile isSpaceChar).reverse.dropWhile isSpaceChar).reverse)

/-- Python str.lstrip("/"): drop leading slashes. -/
def pyLstripSlashes (s : String) : String :=
  String.mk (s.data.dropWhile (fun c => c == '/'))

/-- Lexicographic comparison of character lists; on equally formatted UTC
ISO-8601 strings this is chronological order. -/
def charListLt : List Char → List Char → Bool
  | _, [] => false
  | [], _ :: _ => true
  | a :: as, b :: bs => if a < b then true else if b < a then false else charListLt as bs

/-- Modelled from the spec: the creation timestamp "stored as
seconds-since-epoch or ISO string" must be normalized; for ISO strings in
the same UTC format, chronological order is lexicographic order. -/
def isoTsLt (a b : String) : Bool :=
  charListLt a.data b.data

/-- Modelled from the spec: "reference already an absolute URL (scheme
present)" — a nonempty alphabetic scheme followed by "://". -/
def schemeSplit : List Char → Bool
  | ':' :: '/' :: '/' :: _ => true
  | c :: rest => c.isAlpha && schemeSplit rest
  | [] => false

def spec_schemePresent (s : String) : Bool :=
  match s.data with
  | c :: rest => c.isAlpha && schemeSplit rest
  | [] => false

/-- The fixed default asset URL (DEFAULT_AVATAR in the source). -/
def DEFAULT_AVATAR : String :=
  "https://firebasestorage.googleapis.com/v0/b/chops-app-9b80c.appspot.com/o/profile_picture%2Favatar-defaut-chops.jpg?alt=media"

/-- Modelled from the spec: `_bucket.blob(path).generate_signed_url(expiration)`
is external storage-provider code; per the spec it yields "a time-bounded
signed URL distinct from the literal input, containing an expiry parameter". -/
def generate_signed_url (path : String) (expiration : Nat) : String :=
  "https://storage.googleapis.com/chops-app-9b80c.appspot.com/" ++ path
    ++ "?Expires=" ++ toString expiration ++ "&Signature=sig"

/-- signed_url from the source: empty/None reference gives the default
avatar, a reference starting with "http" is returned unchanged, anything
else is signed with a 3600-second window after stripping leading slashes. -/
def signed_url : Option String → String
  | none => DEFAULT_AVATAR
  | some path =>
    if path = "" then DEFAULT_AVATAR
    else if pyStartsWith path "http" then path
    else generate_signed_url (pyLstripSlashes path) 3600

/-- A stored timestamp value: naive (no timezone info) or timezone-aware,
carried as UTC seconds.  pd.to_datetime(..., utc=True) maps both to the
same UTC instant, localizing naive values as UTC. -/
inductive RawTs where
  | naive (sec : Int)
  | aware (sec : Int)
deriving DecidableEq, Repr

/-- pd.to_datetime(x, errors="coerce", utc=True): both naive and aware
values become UTC-aware; naive values are assumed to be UTC. -/
def toUtcSeconds : RawTs → Int
  | RawTs.naive s => s
  | RawTs.aware s => s

structure Session where
  id : String
  name : Option String
  endDate : Option RawTs
deriving DecidableEq, Repr

def lookupSession (sessions : List Session) (sid : String) : Option Session :=
  sessions.find? (fun s => s.id == sid)

/-- days_left: (end_dt - today).dt.days with end_dt from
members["sessionId"].map(sessions["endDate"]) parsed via
pd.to_datetime(errors="coerce", utc=True); Timedelta .days floors. -/
def daysLeft (sessions : List Session) (now : Int) : Option String → Option Int
  | none => none
  | some sid =>
    match lookupSession sessions sid with
    | none => none
    | some s =>
      match s.endDate with
      | none => none
      | some e => some ((toUtcSeconds e - now).fdiv 86400)

/-- session_name: members["sessionId"].map(sessions["name"]). -/
def sessionName (sessions : List Session) : Option String → Option String
  | none => none
  | some sid => (lookupSession sessions sid).bind (fun s => s.name)

/-- A document of the flat `purchases` collection (pid is the injected
document id, the "id" column of the purchases DataFrame). -/
structure Purchase where
  pid : String
  userId : String
  childId : Option String
  status : Option String
  finalAmount : Option Int
  basePrice : Option Int
  membershipId : Option String
  sessionId : Option String
  createdAtSeconds : Option Int
  createdAtIso : Option String
deriving DecidableEq, Repr

def secOf (p : Purchase) : Option Int := p.createdAtSeconds

/-- Strict order on optional sort keys; a missing value (NaN) sorts below
every present value, so that it lands last in a descending sort
(pandas na_position="last"). -/
def oLt : Option Int → Option Int → Bool
  | none, none => false
  | none, some _ => true
  | some _, none => false
  | some a, some b => decide (a < b)

def secLt (p q : Purchase) : Bool := oLt (secOf p) (secOf q)

/-- Insertion step of the descending sort on "createdAt._seconds". -/
def insertDesc (p : Purchase) : List Purchase → List Purchase
  | [] => [p]
  | q :: qs => if secLt p q then q :: insertDesc p qs else p :: q :: qs

/-- purchases.sort_values("createdAt._seconds", ascending=False): a
descending sort keeping earlier-input rows first among equal keys.  The
source uses pandas' default quicksort, whose order among equal keys is
unspecified; this model fixes the stable order. -/
def sortDesc : List Purchase → List Purchase
  | [] => []
  | p :: ps => insertDesc p (sortDesc ps)

/-- The column test `"createdAt._seconds" in purchases`: the column exists
iff some document carries the nested seconds field. -/
def hasSecondsCol (ps : List Purchase) : Bool :=
  ps.any (fun p => p.createdAtSeconds.isSome)

/-- The column test `"sessionId" in members` after the merge. -/
def hasSessionIdCol (ps : List Purchase) : Bool :=
  ps.any (fun p => p.sessionId.isSome)

def sortedPurchases (ps : List Purchase) : List Purchase :=
  if hasSecondsCol ps then sortDesc ps else ps

/-- The purchase pair key: purchases["userId"] + "_" + purchases["childId"].fillna(""). -/
def pKey (p : Purchase) : String :=
  p.userId ++ "_" ++ p.childId.getD ""

/-- purchases.drop_duplicates("_k"): keep the first row of each key. -/
def dropDup (seen : List String) : List Purchase → List Purchase
  | [] => []
  | p :: ps =>
    if pKey p ∈ seen then dropDup seen ps
    else p :: dropDup (pKey p :: seen) ps

def firstsOf (ps : List Purchase) : List Purchase :=
  dropDup [] (sortedPurchases ps)

/-- The merge lookup: the (unique) row of `firsts` whose key equals k. -/
def selectPurchase (k : String) (ps : List Purchase) : Option Purchase :=
  (firstsOf ps).find? (fun p => pKey p == k)

/-- A document of the `users` collection (id is the injected doc id). -/
structure User where
  id : String
  first_name : Option String
  last_name : Option String
  email : Option String
  image_url : Option String
deriving DecidableEq, Repr

/-- A document of a `users/{uid}/children` sub-collection. -/
structure ChildDoc where
  firstName : Option String
  lastName : Option String
  photoUrl : Option String
deriving DecidableEq, Repr

/-- A row returned by load_children: the child document's fields plus the
injected childId (doc id) and parentUid (the uid it was fetched under). -/
structure ChildRow where
  childId : String
  parentUid : String
  firstName : Option String
  lastName : Option String
  photoUrl : Option String
deriving DecidableEq, Repr

/-- load_children: for each user id, stream its children sub-collection,
annotating each row with childId and parentUid. -/
def load_children (users : List User) (docsOf : String → List (String × ChildDoc)) :
    List ChildRow :=
  match users with
  | [] => []
  | u :: rest =>
    (docsOf u.id).map (fun cd =>
      { childId := cd.1, parentUid := u.id, firstName := cd.2.firstName,
        lastName := cd.2.lastName, photoUrl := cd.2.photoUrl })
      ++ load_children rest docsOf

/-- A Person row of the unioned members DataFrame before the merge. -/
structure Member where
  id : String
  parentUid : String
  type : String
  first_name : Option String
  last_name : Option String
  email : Option String
  image_url : Option String
deriving DecidableEq, Repr

/-- users["type"], users["parentUid"] = "parent", users["id"]. -/
def userToMember (u : User) : Member :=
  { id := u.id, parentUid := u.id, type := "parent", first_name := u.first_name,
    last_name := u.last_name, email := u.email, image_url := u.image_url }

/-- children["type"] = "child", rename childId→id, firstName→first_name,
lastName→last_name, photoUrl→image_url; user columns missing from the
children frame are filled with None (here: email). -/
def childToMember (c : ChildRow) : Member :=
  { id := c.childId, parentUid := c.parentUid, type := "child",
    first_name := c.firstName, last_name := c.lastName, email := none,
    image_url := c.photoUrl }

/-- pd.concat([users, children]): union of the two row sets, users first. -/
def mkMembers (users : List User) (children : List ChildRow) : List Member :=
  users.map userToMember ++ children.map childToMember

/-- The member pair key:
members["parentUid"] + "_" + members["id"].where(members["type"] == "child", ""). -/
def mKey (m : Member) : String :=
  m.parentUid ++ "_" ++ (if m.type == "child" then m.id else "")

/-- The merge is only performed when the purchases frame is non-empty. -/
def attachPurchase (purchases : List Purchase) (m : Member) : Option Purchase :=
  if purchases.isEmpty then none else selectPurchase (mKey m) purchases

/-- One row of the reconciled members DataFrame.  The member columns keep
their names; purchase columns colliding with member columns get the "_p"
suffix (only "id" collides, becoming "id_p"). -/
structure MemberRow where
  id : String
  parentUid : String
  type : String
  first_name : Option String
  last_name : Option String
  email : Option String
  image_url : Option String
  id_p : Option String
  userId : Option String
  childId : Option String
  status : Option String
  finalAmount : Option Int
  basePrice : Option Int
  membershipId : Option String
  sessionId : Option String
  full_name : String
  avatar : String
  days_left : Option Int
  session_name : Option String
deriving DecidableEq, Repr

/-- The reconciled row built for one member: left-merge of the selected
purchase, then full_name, avatar and the session columns. -/
def buildRow (purchases : List Purchase) (sessions : List Session) (now : Int)
    (m : Member) : MemberRow :=
  let a := attachPurchase purchases m
  let sid := a.bind (fun p => p.sessionId)
  let sessOn : Bool := !sessions.isEmpty && hasSessionIdCol purchases
  { id := m.id
    parentUid := m.parentUid
    type := m.type
    first_name := m.first_name
    last_name := m.last_name
    email := m.email
    image_url := m.image_url
    id_p := a.map (fun p => p.pid)
    userId := a.map (fun p => p.userId)
    childId := a.bind (fun p => p.childId)
    status := a.bind (fun p => p.status)
    finalAmount := a.bind (fun p => p.finalAmount)
    basePrice := a.bind (fun p => p.basePrice)
    membershipId := a.bind (fun p => p.membershipId)
    sessionId := sid
    full_name := pyStrip ((m.first_name.getD "") ++ " " ++ (m.last_name.getD ""))
    avatar := signed_url m.image_url
    days_left := if sessOn then daysLeft sessions now sid else none
    session_name := if sessOn then sessionName sessions sid else none }

/-- The reconciled members DataFrame: its rows plus the column-presence
flags for the purchase columns (merge skipped on an empty purchases
frame) and the session columns (guard at the days_left computation). -/
structure MembersDF where
  rows : List MemberRow
  purchaseCols : Bool
  daysLeftCol : Bool
deriving DecidableEq, Repr

/-- build_members_df from the source, as a function of the store snapshot
(users, children, purchases, sessions) and the current UTC time. -/
def build_members_df (users : List User) (children : List ChildRow)
    (purchases : List Purchase) (sessions : List Session) (now : Int) : MembersDF :=
  { rows := (mkMembers users children).map (buildRow purchases sessions now)
    purchaseCols := !purchases.isEmpty
    daysLeftCol := !sessions.isEmpty && hasSessionIdCol purchases }

/-- The lru_cache(maxsize=1) wrapper around build_members_df: the function
takes no arguments, so a populated cache is always a hit. -/
def build_members_df_cached (users : List User) (children : List ChildRow)
    (purchases : List Purchase) (sessions : List Session) (now : Int)
    (cache : Option MembersDF) : MembersDF × Option MembersDF :=
  match cache with
  | some df => (df, some df)
  | none =>
    let df := build_members_df users children purchases sessions now
    (df, some df)

/- Concrete store snapshots used by the witnesses and counterexamples. -/

def anaUser : User :=
  { id := "u1", first_name := some "Ana", last_name := none, email := none,
    image_url := none }

def p1User : User :=
  { id := "p1", first_name := some "Paula", last_name := some "Prim",
    email := some "p@x", image_url := none }

def c1Doc : ChildDoc :=
  { firstName := some "Carl", lastName := some "Prim", photoUrl := none }

def demoChildDocs : String → List (String × ChildDoc) :=
  fun uid => if uid = "p1" then [("c1", c1Doc)] else []

def purchase50 : Purchase :=
  { pid := "pa", userId := "p1", childId := some "", status := some "paid",
    finalAmount := some 50, basePrice := none, membershipId := none, sessionId := none,
    createdAtSeconds := some 100, createdAtIso := none }

def purchase20 : Purchase :=
  { pid := "pb", userId := "p1", childId := some "c1", status := some "pending",
    finalAmount := some 20, basePrice := none, membershipId := none, sessionId := none,
    createdAtSeconds := some 200, createdAtIso := none }

def isoEarly : Purchase :=
  { pid := "q1", userId := "u1", childId := some "", status := some "paid",
    finalAmount := some 10, basePrice := none, membershipId := none, sessionId := none,
    createdAtSeconds := none, createdAtIso := some "2024-01-01T00:00:00Z" }

def isoLate : Purchase :=
  { pid := "q2", userId := "u1", childId := some "", status := some "paid",
    finalAmount := some 11, basePrice := none, membershipId := none, sessionId := none,
    createdAtSeconds := none, createdAtIso := some "2025-01-01T00:00:00Z" }

def wEarly : Purchase :=
  { pid := "w1", userId := "p1", childId := some "", status := some "pending",
    finalAmount := some 1, basePrice := none, membershipId := none, sessionId := none,
    createdAtSeconds := some 100, createdAtIso := none }

def wLate : Purchase :=
  { pid := "w2", userId := "p1", childId := some "", status := some "paid",
    finalAmount := some 2, basePrice := none, membershipId := none, sessionId := none,
    createdAtSeconds := some 200, createdAtIso := none }

def basePriceOnly : Purchase :=
  { pid := "q3", userId := "u1", childId := some "", status := some "paid",
    finalAmount := none, basePrice := some 30, membershipId := none, sessionId := none,
    createdAtSeconds := some 100, createdAtIso := none }

def zeroAmount : Purchase :=
  { pid := "q4", userId := "u1", childId := some "", status := some "paid",
    finalAmount := some 0, basePrice := some 99, membershipId := none, sessionId := none,
    createdAtSeconds := some 100, createdAtIso := none }

def sessJan10 : Session :=
  { id := "s1", name := some "Winter", endDate := some (RawTs.aware 1736467200) }

def sessJan10naive : Session :=
  { id := "s1", name := some "Winter", endDate := some (RawTs.naive 1736467200) }

def t20250115 : Int := 1736899200

/- Lemmas about the descending sort and the duplicate-dropping step. -/

theorem oLt_irrefl (a : Option Int) : oLt a a = false := by
  cases a <;> simp [oLt]

theorem oLt_asymm {a b : Option Int} (h : oLt a b = true) : oLt b a = false := by
  cases a <;> cases b <;> simp_all [oLt]
  omega

theorem oLt_false_trans {a b c : Option Int} (hab : oLt a b = false)
    (hbc : oLt b c = false) : oLt a c = false := by
  cases a <;> cases b <;> cases c <;> simp_all [oLt]
  omega

theorem secLt_irrefl (p : Purchase) : secLt p p = false := oLt_irrefl _

theorem secLt_asymm {p q : Purchase} (h : secLt p q = true) : secLt q p = false :=
  oLt_asymm h

theorem secLt_false_trans {p q r : Purchase} (hpq : secLt p q = false)
    (hqr : secLt q r = false) : secLt p r = false :=
  oLt_false_trans hpq hqr

theorem mem_insertDesc {a p : Purchase} {l : List Purchase} :
    a ∈ insertDesc p l ↔ a = p ∨ a ∈ l := by
  induction l with
  | nil => simp [insertDesc]
  | cons q qs ih =>
    by_cases h : secLt p q = true
    · simp only [insertDesc, if_pos h, List.mem_cons, ih]
      tauto
    · simp only [insertDesc, if_neg h, List.mem_cons]

theorem mem_sortDesc {a : Purchase} {l : List Purchase} :
    a ∈ sortDesc l ↔ a ∈ l := by
  induction l with
  | nil => simp [sortDesc]
  | cons p ps ih => simp [sortDesc, mem_insertDesc, ih]

/-- The descending-sortedness invariant: every row precedes only rows with
a key no greater than its own. -/
def SortedDesc (l : List Purchase) : Prop :=
  l.Pairwise (fun a b => secLt a b = false)

theorem sortedDesc_insertDesc (p : Purchase) {l : List Purchase}
    (h : SortedDesc l) : SortedDesc (insertDesc p l) := by
  induction l with
  | nil => simp [insertDesc, SortedDesc]
  | cons q qs ih =>
    rcases (List.pairwise_cons.mp h) with ⟨hq, hqs⟩
    by_cases hpq : secLt p q = true
    · simp only [insertDesc, if_pos hpq, SortedDesc, List.pairwise_cons]
      refine ⟨fun r hr => ?_, ih hqs⟩
      rcases mem_insertDesc.mp hr with rfl | hr'
      · exact secLt_asymm hpq
      · exact hq r hr'
    · simp only [insertDesc, if_neg hpq, SortedDesc, List.pairwise_cons]
      rw [Bool.not_eq_true] at hpq
      refine ⟨fun r hr => ?_, hq, hqs⟩
      rcases List.mem_cons.mp hr with rfl | hr'
      · exact hpq
      · exact secLt_false_trans hpq (hq r hr')

theorem sortedDesc_sortDesc (l : List Purchase) : SortedDesc (sortDesc l) := by
  induction l with
  | nil => simp [sortDesc, SortedDesc]
  | cons p ps ih => exact sortedDesc_insertDesc p ih

theorem find_insertDesc_not (pred : Purchase → Bool) (p : Purchase)
    (l : List Purchase) (hp : pred p = false) :
    (insertDesc p l).find? pred = l.find? pred := by
  induction l with
  | nil => simp [insertDesc, List.find?, hp]
  | cons q qs ih =>
    by_cases hpq : secLt p q = true
    · simp only [insertDesc, if_pos hpq]
      by_cases hq : pred q = true
      · simp [List.find?, hq]
      · rw [Bool.not_eq_true] at hq
        simp [List.find?, hq, ih]
    · simp [insertDesc, if_neg hpq, List.find?, hp]

theorem find_insertDesc_max (pred : Purchase → Bool) (p : Purchase)
    (l : List Purchase) (hp : pred p = true)
    (hall : ∀ q ∈ l, pred q = true → secLt p q = false) :
    (insertDesc p l).find? pred = some p := by
  induction l with
  | nil => simp [insertDesc, List.find?, hp]
  | cons q qs ih =>
    by_cases hpq : secLt p q = true
    · have hq : pred q = false := by
        by_contra hq'
        rw [Bool.not_eq_false] at hq'
        have := hall q (List.mem_cons_self q qs) hq'
        rw [this] at hpq
        exact Bool.false_ne_true hpq
      simp only [insertDesc, if_pos hpq]
      rw [List.find?_cons_of_neg _ (by simp [hq])]
      exact ih (fun r hr hrp => hall r (List.mem_cons_of_mem q hr) hrp)
    · simp only [insertDesc, if_neg hpq]
      exact List.find?_cons_of_pos _ hp

theorem find_insertDesc_lt (pred : Purchase → Bool) (p p' : Purchase)
    (l : List Purchase) (hl : SortedDesc l) (hfind : l.find? pred = some p')
    (hlt : secLt p p' = true) :
    (insertDesc p l).find? pred = some p' := by
  induction l with
  | nil => simp [List.find?] at hfind
  | cons q qs ih =>
    rcases (List.pairwise_cons.mp hl) with ⟨hq, hqs⟩
    by_cases hpq : secLt p q = true
    · simp only [insertDesc, if_pos hpq]
      by_cases hqp : pred q = true
      · have : p' = q := by
          rw [List.find?_cons_of_pos _ hqp] at hfind
          exact (Option.some_inj.mp hfind).symm
        subst this
        exact List.find?_cons_of_pos _ hqp
      · rw [Bool.not_eq_true] at hqp
        rw [List.find?_cons_of_neg _ (by simp [hqp])] at hfind
        rw [List.find?_cons_of_neg _ (by simp [hqp])]
        exact ih hqs hfind
    · exfalso
      have hmem : p' ∈ q :: qs := List.mem_of_find?_eq_some hfind
      have hqp' : secLt q p' = false := by
        rcases List.mem_cons.mp hmem with rfl | hmem'
        · exact secLt_irrefl _
        · exact hq p' hmem'
      rw [Bool.not_eq_true] at hpq
      have : secLt p p' = false := secLt_false_trans hpq hqp'
      rw [this] at hlt
      exact Bool.false_ne_true hlt

theorem find_sortDesc_max (k : String) (p' : Purchase) :
    ∀ ps : List Purchase, p' ∈ ps → pKey p' = k →
      (∀ q ∈ ps, pKey q = k → q ≠ p' → secLt q p' = true) →
      (sortDesc ps).find? (fun p => pKey p == k) = some p' := by
  intro ps
  induction ps with
  | nil => intro h; exact absurd h (List.not_mem_nil p')
  | cons p rest ih =>
    intro hmem hkey hmax
    by_cases hp : p = p'
    · subst hp
      show (insertDesc p (sortDesc rest)).find? (fun q => pKey q == k) = some p
      apply find_insertDesc_max
      · simp [hkey]
      · intro q hq hqk
        rcases mem_sortDesc.mp hq with hq'
        by_cases hqe : q = p
        · subst hqe; exact secLt_irrefl q
        · have := hmax q (List.mem_cons_of_mem p hq') (by simpa using hqk) hqe
          exact secLt_asymm this
    · have hmem' : p' ∈ rest := by
        rcases List.mem_cons.mp hmem with h | h
        · exact absurd h.symm hp
        · exact h
      have ihres := ih hmem' hkey
        (fun q hq hqk hqe => hmax q (List.mem_cons_of_mem p hq) hqk hqe)
      show (insertDesc p (sortDesc rest)).find? (fun q => pKey q == k) = some p'
      by_cases hpk : pKey p = k
      · have hlt : secLt p p' = true := hmax p (List.mem_cons_self p rest) hpk hp
        exact find_insertDesc_lt _ p p' (sortDesc rest) (sortedDesc_sortDesc rest)
          ihres hlt
      · rw [find_insertDesc_not _ _ _ (by simp [hpk])]
        exact ihres

theorem find_dropDup (k : String) :
    ∀ (l : List Purchase) (seen : List String),
      (dropDup seen l).find? (fun p => pKey p == k) =
        if k ∈ seen then none else l.find? (fun p => pKey p == k) := by
  intro l
  induction l with
  | nil => intro seen; simp [dropDup, List.find?]
  | cons p ps ih =>
    intro seen
    by_cases hs : pKey p ∈ seen
    · simp only [dropDup, if_pos hs]
      by_cases hk : k ∈ seen
      · simp [ih, hk]
      · have hpk : pKey p ≠ k := fun h => hk (h ▸ hs)
        rw [ih, if_neg hk, List.find?_cons_of_neg _ (by simp [hpk]), if_neg hk]
    · simp only [dropDup, if_neg hs]
      by_cases hpk : pKey p = k
      · subst hpk
        by_cases hk : pKey p ∈ seen
        · exact absurd hk hs
        · rw [List.find?_cons_of_pos _ (by simp),
            List.find?_cons_of_pos _ (by simp), if_neg hk]
      · rw [List.find?_cons_of_neg _ (by simp [hpk]),
          List.find?_cons_of_neg _ (by simp [hpk]), ih]
        by_cases hk : k ∈ seen
        · simp [hk]
        · have : k ∉ pKey p :: seen := by
            intro h
            rcases List.mem_cons.mp h with h' | h'
            · exact hpk h'.symm
            · exact hk h'
          simp [hk, this]

/-- The selection made by sort-descending + drop_duplicates: when the
seconds column is present, a row that strictly dominates every other row
of its partition (missing timestamps counting as smallest) is selected,
whatever the input order. -/
theorem selectPurchase_max (ps : List Purchase) (k : String) (p' : Purchase)
    (hmem : p' ∈ ps) (hkey : pKey p' = k) (hsec : (secOf p').isSome = true)
    (hmax : ∀ q ∈ ps, pKey q = k → q ≠ p' → secLt q p' = true) :
    selectPurchase k ps = some p' := by
  have hcol : hasSecondsCol ps = true := by
    apply List.any_eq_true.mpr
    exact ⟨p', hmem, hsec⟩
  unfold selectPurchase firstsOf sortedPurchases
  rw [if_pos hcol, find_dropDup, if_neg (List.not_mem_nil k)]
  exact find_sortDesc_max k p' ps hmem hkey hmax

/-- C1 (amended): when purchases carry the seconds-since-epoch timestamp
column ("createdAt._seconds"), reconciliation attaches to a (parentOwnerId,
childKey) partition exactly the purchase whose timestamp strictly dominates
every other purchase of the partition, regardless of input order, and the
member row with that key receives that purchase's fields.  (As stated the
claim is false: with ISO-string timestamps no sorting happens and the
first-encountered purchase is kept; see the counterexample.) -/
theorem claim_C1 (ps : List Purchase) (k : String) (p' : Purchase)
    (hmem : p' ∈ ps) (hkey : pKey p' = k) (hsec : (secOf p').isSome = true)
    (hmax : ∀ q ∈ ps, pKey q = k → q ≠ p' → secLt q p' = true) :
    selectPurchase k ps = some p' ∧
    ∀ (sessions : List Session) (now : Int) (m : Member), mKey m = k →
      (buildRow ps sessions now m).id_p = some p'.pid := by
  have hsel : selectPurchase k ps = some p' :=
    selectPurchase_max ps k p' hmem hkey hsec hmax
  refine ⟨hsel, fun sessions now m hk => ?_⟩
  have hne : ps.isEmpty = false := by
    cases ps
    · exact absurd hmem (List.not_mem_nil p')
    · rfl
  simp [buildRow, attachPurchase, hne, hk, hsel]

/-- C1 counterexample: two purchases of the same partition whose creation
timestamps are ISO strings with T1 < T2 chronologically; with the earlier
purchase first in the input, selection keeps the earlier purchase, not the
one with the maximal timestamp. -/
theorem claim_C1_cex :
    isoTsLt "2024-01-01T00:00:00Z" "2025-01-01T00:00:00Z" = true ∧
    isoEarly.createdAtIso = some "2024-01-01T00:00:00Z" ∧
    isoLate.createdAtIso = some "2025-01-01T00:00:00Z" ∧
    pKey isoEarly = pKey isoLate ∧
    selectPurchase (pKey isoLate) [isoEarly, isoLate] = some isoEarly ∧
    isoEarly ≠ isoLate := by
  exact ⟨by decide, rfl, rfl, by decide, by decide, by decide⟩

/-- C1 witness: two seconds-stamped purchases with T1 = 100 < T2 = 200,
earlier one first in the input; the T2 purchase is selected. -/
theorem claim_C1_witness : selectPurchase "p1_" [wEarly, wLate] = some wLate :=
  (claim_C1 [wEarly, wLate] "p1_" wLate (by decide) (by decide) (by decide)
    (by decide)).1

/-- C2: Parent P1 (id="p1") with Child C1 (id="c1") and purchases keyed
(p1, "") and (p1, "c1"); reconciliation attaches the 50-amount purchase to
P1's row and the 20-amount purchase to C1's row, the member pair keys being
"p1_" and "p1_c1" and the purchase pair keys matching them one-to-one. -/
theorem claim_C2 :
    (build_members_df [p1User] (load_children [p1User] demoChildDocs)
        [purchase50, purchase20] [sessJan10] 0).rows.map
      (fun r => (r.id, r.type, r.finalAmount)) =
      [("p1", "parent", some 50), ("c1", "child", some 20)] ∧
    (mkMembers [p1User] (load_children [p1User] demoChildDocs)).map mKey =
      ["p1_", "p1_c1"] ∧
    pKey purchase50 = "p1_" ∧ pKey purchase20 = "p1_c1" := by
  exact ⟨by decide, by decide, by decide, by decide⟩

/-- C3: days-remaining is none when the sessionId is absent or unmatched;
when the matched session has an end timestamp it equals
floor((end − now) / 86400) in UTC, negative exactly when the end is in the
past and non-negative otherwise; for end 2025-01-10T00:00:00Z and now
2025-01-15T00:00:00Z the value is −5. -/
theorem claim_C3 :
    (∀ (ss : List Session) (now : Int), daysLeft ss now none = none) ∧
    (∀ (ss : List Session) (now : Int) (sid : String),
      lookupSession ss sid = none → daysLeft ss now (some sid) = none) ∧
    (∀ (ss : List Session) (now : Int) (sid : String) (s : Session) (e : RawTs),
      lookupSession ss sid = some s → s.endDate = some e →
      daysLeft ss now (some sid) = some ((toUtcSeconds e - now).fdiv 86400)) ∧
    (∀ (ss : List Session) (now : Int) (sid : String) (s : Session) (e : RawTs),
      lookupSession ss sid = some s → s.endDate = some e → toUtcSeconds e < now →
      ∃ d, daysLeft ss now (some sid) = some d ∧ d < 0) ∧
    (∀ (ss : List Session) (now : Int) (sid : String) (s : Session) (e : RawTs),
      lookupSession ss sid = some s → s.endDate = some e → now ≤ toUtcSeconds e →
      ∃ d, daysLeft ss now (some sid) = some d ∧ 0 ≤ d) ∧
    daysLeft [sessJan10] t20250115 (some "s1") = some (-5) := by
  have hformula : ∀ (ss : List Session) (now : Int) (sid : String) (s : Session)
      (e : RawTs), lookupSession ss sid = some s → s.endDate = some e →
      daysLeft ss now (some sid) = some ((toUtcSeconds e - now).fdiv 86400) := by
    intro ss now sid s e hfind hend
    simp [daysLeft, hfind, hend]
  refine ⟨fun ss now => rfl, ?_, hformula, ?_, ?_, by decide⟩
  · intro ss now sid hfind
    simp [daysLeft, hfind]
  · intro ss now sid s e hfind hend hpast
    refine ⟨(toUtcSeconds e - now).fdiv 86400, hformula ss now sid s e hfind hend, ?_⟩
    rw [Int.fdiv_eq_ediv _ (by norm_num)]
    exact Int.ediv_neg' (by omega) (by norm_num)
  · intro ss now sid s e hfind hend hfut
    refine ⟨(toUtcSeconds e - now).fdiv 86400, hformula ss now sid s e hfind hend, ?_⟩
    rw [Int.fdiv_eq_ediv _ (by norm_num)]
    exact Int.ediv_nonneg (by omega) (by norm_num)

/-- C3 witness: a matched session whose end (2025-01-10) lies before now
(2025-01-15) yields a negative day count. -/
theorem claim_C3_witness :
    ∃ d, daysLeft [sessJan10] t20250115 (some "s1") = some d ∧ d < 0 :=
  claim_C3.2.2.2.1 [sessJan10] t20250115 "s1" sessJan10 (RawTs.aware 1736467200)
    (by decide) (by decide) (by decide)

/-- C4 (amended): the reconciled amount column is the attached purchase's
finalAmount taken as-is — present values (including zero) are kept, an
absent value stays the no-value marker, and basePrice is carried in its own
column, never substituted for a missing finalAmount.  (As stated the claim
is false: the code has no fallback from finalAmount to basePrice; see the
counterexample.) -/
theorem claim_C4 (ps : List Purchase) (ss : List Session) (now : Int)
    (m : Member) (q : Purchase) (h : attachPurchase ps m = some q) :
    (buildRow ps ss now m).finalAmount = q.finalAmount ∧
    (buildRow ps ss now m).basePrice = q.basePrice := by
  constructor <;> simp [buildRow, h]

/-- C4 counterexample: a purchase with no finalAmount but basePrice 30 is
attached; the reconciled amount is the no-value marker, not 30. -/
theorem claim_C4_cex :
    (build_members_df [anaUser] [] [basePriceOnly] [sessJan10] 0).rows.map
      (fun r => (r.finalAmount, r.basePrice)) = [(none, some 30)] ∧
    (none : Option Int) ≠ some 30 := by
  exact ⟨by decide, by decide⟩

/-- C4 witness: a purchase with finalAmount 0 keeps the zero amount. -/
theorem claim_C4_witness :
    (buildRow [zeroAmount] [] 0 (userToMember anaUser)).finalAmount = some 0 :=
  ((claim_C4 [zeroAmount] [] 0 (userToMember anaUser) zeroAmount (by decide)).1).trans
    rfl

/-- C5 (amended): when the purchase set is non-empty, a Person row with no
matching purchase gets the explicit no-value marker in all of status,
amount, membershipId and sessionId — never 0 or the empty string.  (As
stated the claim is false: with an empty purchase set the merge is skipped
and the purchase columns are omitted from the output entirely; see the
counterexample.) -/
theorem claim_C5 (ps : List Purchase) (ss : List Session) (now : Int)
    (m : Member) (hne : ps ≠ []) (hno : selectPurchase (mKey m) ps = none) :
    (buildRow ps ss now m).status = none ∧
    (buildRow ps ss now m).finalAmount = none ∧
    (buildRow ps ss now m).membershipId = none ∧
    (buildRow ps ss now m).sessionId = none := by
  have hempty : ps.isEmpty = false := by
    cases ps
    · exact absurd rfl hne
    · rfl
  have h : attachPurchase ps m = none := by
    simp [attachPurchase, hempty, hno]
  refine ⟨?_, ?_, ?_, ?_⟩ <;> simp [buildRow, h]

/-- C5 counterexample: with an empty purchase set the output has no
purchase columns at all (the merge at line 219 is skipped), though a Person
row is produced. -/
theorem claim_C5_cex :
    (build_members_df [anaUser] [] [] [sessJan10] 0).purchaseCols = false ∧
    (build_members_df [anaUser] [] [] [sessJan10] 0).rows.length = 1 := by
  exact ⟨by decide, by decide⟩

/-- C5 witness: a non-empty purchase set whose only key "p1_" does not
match member key "u1_"; all four purchase fields of the row are none. -/
theorem claim_C5_witness :
    (buildRow [purchase50] [] 0 (userToMember anaUser)).status = none ∧
    (buildRow [purchase50] [] 0 (userToMember anaUser)).finalAmount = none ∧
    (buildRow [purchase50] [] 0 (userToMember anaUser)).membershipId = none ∧
    (buildRow [purchase50] [] 0 (userToMember anaUser)).sessionId = none :=
  claim_C5 [purchase50] [] 0 (userToMember anaUser) (by decide) (by decide)

/-- C6 (amended): the day-count computation never raises a normalization
fault — pd.to_datetime(..., utc=True) silently localizes a naive end
timestamp to UTC, so a naive end subtracted from the aware "now" yields the
same numeric day count as the equal aware timestamp.  (As stated the claim
is false: no fault is raised; see the counterexample.) -/
theorem claim_C6 (ss : List Session) (now : Int) (sid : String) (s : Session)
    (t : Int) (hfind : lookupSession ss sid = some s)
    (hend : s.endDate = some (RawTs.naive t)) :
    daysLeft ss now (some sid) = some ((t - now).fdiv 86400) ∧
    toUtcSeconds (RawTs.naive t) = toUtcSeconds (RawTs.aware t) := by
  constructor
  · simp [daysLeft, hfind, hend, toUtcSeconds]
  · rfl

/-- C6 counterexample: a session whose end timestamp is naive (no timezone
info) still produces the numeric day count −5 against the aware UTC "now" —
no normalization fault is raised. -/
theorem claim_C6_cex :
    daysLeft [sessJan10naive] t20250115 (some "s1") = some (-5) := by
  decide

/-- C6 witness: the amended statement applied to the concrete naive-ended
session. -/
theorem claim_C6_witness :
    daysLeft [sessJan10naive] t20250115 (some "s1") =
      some ((1736467200 - t20250115).fdiv 86400) :=
  (claim_C6 [sessJan10naive] t20250115 "s1" sessJan10naive 1736467200
    (by decide) (by decide)).1

/-- C7 (amended): signed_url maps a null or empty reference to the fixed
default asset URL, returns the reference unchanged exactly when it starts
with "http", and otherwise signs the slash-stripped path with a
3600-second expiry.  (As stated the claim is false: the code tests the
literal prefix "http", not scheme presence; see the counterexample.) -/
theorem claim_C7 :
    signed_url none = DEFAULT_AVATAR ∧
    signed_url (some "") = DEFAULT_AVATAR ∧
    (∀ s : String, s ≠ "" → pyStartsWith s "http" = true →
      signed_url (some s) = s) ∧
    (∀ s : String, s ≠ "" → pyStartsWith s "http" = false →
      signed_url (some s) = generate_signed_url (pyLstripSlashes s) 3600) := by
  refine ⟨rfl, by decide, fun s hs hh => ?_, fun s hs hh => ?_⟩
  · simp [signed_url, hs, hh]
  · simp [signed_url, hs, hh]

/-- C7 counterexample: "http_assets/a.png" is a storage-relative path with
no URL scheme, yet signed_url returns it unchanged instead of producing a
signed URL distinct from the input. -/
theorem claim_C7_cex :
    signed_url (some "http_assets/a.png") = "http_assets/a.png" ∧
    spec_schemePresent "http_assets/a.png" = false := by
  exact ⟨by decide, by decide⟩

/-- C7 witness: an absolute http URL passes through unchanged and a
storage-relative path is signed with the 3600-second window. -/
theorem claim_C7_witness :
    signed_url (some "http://x/y") = "http://x/y" ∧
    signed_url (some "avatars/a.png") =
      generate_signed_url (pyLstripSlashes "avatars/a.png") 3600 :=
  ⟨claim_C7.2.2.1 "http://x/y" (by decide) (by decide),
   claim_C7.2.2.2 "avatars/a.png" (by decide) (by decide)⟩

/-- C8: running the member-table build twice on the same store snapshot
yields identical tables — the lru_cache(maxsize=1) wrapper returns the
cached table on the second invocation, even at a different current time. -/
theorem claim_C8 (u : List User) (c : List ChildRow) (p : List Purchase)
    (s : List Session) (t1 t2 : Int) :
    (build_members_df_cached u c p s t2
        (build_members_df_cached u c p s t1 none).2).1 =
      (build_members_df_cached u c p s t1 none).1 := rfl

/-- C9: every reconciled row's full display name is the stripped
concatenation of its given and family name parts with absent parts
collapsed to empty strings; for given="Ana", family=None the result is
exactly "Ana". -/
theorem claim_C9 :
    (∀ (u : List User) (c : List ChildRow) (p : List Purchase)
      (s : List Session) (now : Int) (r : MemberRow),
      r ∈ (build_members_df u c p s now).rows →
      r.full_name =
        pyStrip ((r.first_name.getD "") ++ " " ++ (r.last_name.getD ""))) ∧
    (build_members_df [anaUser] [] [] [sessJan10] 0).rows.map
      (fun r => r.full_name) = ["Ana"] := by
  constructor
  · intro u c p s now r hr
    simp only [build_members_df, List.mem_map] at hr
    obtain ⟨m, hm, rfl⟩ := hr
    rfl
  · decide

/-- C9 witness: the general full-name equation applied to the Ana row. -/
theorem claim_C9_witness :
    (buildRow [] [sessJan10] 0 (userToMember anaUser)).full_name =
      pyStrip (((buildRow [] [sessJan10] 0 (userToMember anaUser)).first_name.getD "")
        ++ " " ++
        ((buildRow [] [sessJan10] 0 (userToMember anaUser)).last_name.getD "")) :=
  claim_C9.1 [anaUser] [] [] [sessJan10] 0
    (buildRow [] [sessJan10] 0 (userToMember anaUser)) (by decide)

/-- C10: the purchase join never overwrites a Person field — the output
rows are exactly the members mapped through buildRow, every identity field
(id, parentUid, type, names) of a built row equals its pre-join value, and
the purchase's colliding "id" column lands in the "_p"-suffixed id_p
column. -/
theorem claim_C10 (u : List User) (c : List ChildRow) (p : List Purchase)
    (s : List Session) (now : Int) :
    (build_members_df u c p s now).rows = (mkMembers u c).map (buildRow p s now) ∧
    ∀ m : Member,
      (buildRow p s now m).id = m.id ∧
      (buildRow p s now m).parentUid = m.parentUid ∧
      (buildRow p s now m).type = m.type ∧
      (buildRow p s now m).first_name = m.first_name ∧
      (buildRow p s now m).last_name = m.last_name ∧
      (buildRow p s now m).id_p = (attachPurchase p m).map (fun q => q.pid) :=
  ⟨rfl, fun _ => ⟨rfl, rfl, rfl, rfl, rfl, rfl⟩⟩

end Chops
